import Mathlib

/-
Shallow embedding of `core/ai_query_generator.py` from the
AI-Driven-Data-Fabric repository.

Strings are modelled as `List Char`; Python's `str.lower`, `str.strip`,
`str.startswith`, the `in` substring operator and `re.sub`/`re.findall`
on the two concrete patterns used by the code are embedded directly.
The remote model provider and the database driver are modelled as
oracles (a list of per-model outcomes, and a list of driver cell
values).  Numeric cell values are modelled as rationals.
-/

namespace DataFabric

/-- ASCII lowercasing of one character, as Python `str.lower` acts on
the ASCII range. -/
def lowerChar (c : Char) : Char :=
  if 'A' ≤ c ∧ c ≤ 'Z' then Char.ofNat (c.toNat + 32) else c

/-- `str.lower` on a whole string. -/
def pyLower (s : List Char) : List Char := s.map lowerChar

/-- Python whitespace, as recognized by `str.strip()`. -/
def pySpace (c : Char) : Bool :=
  c = ' ' || c = '\t' || c = '\n' || c = '\r' ||
  c = Char.ofNat 11 || c = Char.ofNat 12

/-- `str.strip()`: drop leading and trailing whitespace. -/
def pyStrip (s : List Char) : List Char :=
  ((s.dropWhile pySpace).reverse.dropWhile pySpace).reverse

/-- `str.startswith`: Boolean prefix test. -/
def isPre : List Char → List Char → Bool
  | [], _ => true
  | _ :: _, [] => false
  | a :: l₁, b :: l₂ => a == b && isPre l₁ l₂

/-- Python's substring operator `p in s`. -/
def isSub (p : List Char) : List Char → Bool
  | [] => p.isEmpty
  | c :: cs => isPre p (c :: cs) || isSub p cs

/-- The backtick character (written by code point to keep the file
free of raw backticks). -/
def tick : Char := Char.ofNat 96

/-- A three-backtick code fence, the fixed part of the two regex
patterns in `_clean_sql_query`. -/
def fence : List Char := [tick, tick, tick]

/-- The fence immediately followed by `sql`. -/
def fenceSql : List Char := fence ++ ['s', 'q', 'l']

/-- Consume one optional newline, the `\n?` tail of both patterns. -/
def dropNl : List Char → List Char
  | '\n' :: cs => cs
  | cs => cs

/-- Fuelled scanner for `re.sub(<fence>sql\n?, '', s)`: leftmost,
non-overlapping, empty replacement.  With fuel `≥ s.length` the fuel
never runs out. -/
def sfSql : Nat → List Char → List Char
  | 0, s => s
  | _ + 1, [] => []
  | n + 1, c :: cs =>
    if isPre fenceSql (c :: cs) then sfSql n (dropNl (cs.drop 5))
    else c :: sfSql n cs

/-- `re.sub` of the fence-plus-`sql` pattern (line 289 of the source). -/
def subFenceSql (s : List Char) : List Char := sfSql s.length s

/-- Fuelled scanner for `re.sub(<fence>\n?, '', s)`. -/
def sfTick : Nat → List Char → List Char
  | 0, s => s
  | _ + 1, [] => []
  | n + 1, c :: cs =>
    if isPre fence (c :: cs) then sfTick n (dropNl (cs.drop 2))
    else c :: sfTick n cs

/-- `re.sub` of the bare fence pattern (line 290 of the source). -/
def subFenceTick (s : List Char) : List Char := sfTick s.length s

/-- The denylist of `_clean_sql_query` (line 301). -/
def prohibitedOps : List (List Char) :=
  ["drop", "delete", "update", "insert", "alter", "create",
   "truncate", "grant", "revoke"].map String.toList

/-- The single permitted table name. -/
def tableName : List Char := "employees".toList

/-- The required statement keyword. -/
def selectKw : List Char := "select".toList

/-- `_clean_sql_query` (source lines 283-313): strip code fences and
whitespace, require a `select` prefix (case-insensitive), reject on any
denylisted keyword, require the table name, and append a final `;` if
absent.  `none` models the Python `return None` rejection. -/
def cleanSql (sql : List Char) : Option (List Char) :=
  if sql.isEmpty then none
  else
    let s := pyStrip (subFenceTick (subFenceSql sql))
    let low := pyLower s
    if ¬ isPre selectKw low then none
    else if prohibitedOps.any (fun op => isSub op low) then none
    else if ¬ isSub tableName low then none
    else if s.getLast? = some ';' then some s else some (s ++ [';'])

/-! ### The rule-based fallback generator (`_query_fallback_local`) -/

/-- Salary intent (line 183). -/
def askSalary (ql : List Char) : Bool :=
  (["salary", "pay", "wage", "earning", "income"].map String.toList).any
    (fun w => isSub w ql)

/-- Department intent (line 184). -/
def askDept (ql : List Char) : Bool :=
  (["department", "dept"].map String.toList).any (fun w => isSub w ql)

/-- Position intent (line 185). -/
def askPosition (ql : List Char) : Bool :=
  (["position", "job", "title", "role"].map String.toList).any
    (fun w => isSub w ql)

/-- Date intent (line 186). -/
def askDate (ql : List Char) : Bool :=
  (["joined", "hired", "date", "when"].map String.toList).any
    (fun w => isSub w ql)

/-- Full-row intent (line 187). -/
def askDetails (ql : List Char) : Bool :=
  (["details", "information", "everything", "all details"].map
    String.toList).any (fun w => isSub w ql)

/-- Count intent (line 188). -/
def askCount (ql : List Char) : Bool :=
  (["count", "how many", "number of"].map String.toList).any
    (fun w => isSub w ql)

/-- Column-list construction (lines 190-206): start from `name`, then
conditionally append `department`, `salary`, `position`, `date_of_join`,
each guarded by a membership test against the list built so far. -/
def fallbackColumns (ql : List Char) : List (List Char) :=
  let cols := ["name".toList]
  let cols :=
    if (askDept ql || isSub ("department".toList) ql) &&
        ¬ cols.contains ("department".toList)
    then cols ++ ["department".toList] else cols
  let cols :=
    if askSalary ql && ¬ cols.contains ("salary".toList)
    then cols ++ ["salary".toList] else cols
  let cols :=
    if askPosition ql && ¬ cols.contains ("position".toList)
    then cols ++ ["position".toList] else cols
  let cols :=
    if askDate ql && ¬ cols.contains ("date_of_join".toList)
    then cols ++ ["date_of_join".toList] else cols
  cols

/-- `", ".join(columns)`. -/
def joinCols (cols : List (List Char)) : List Char :=
  List.intercalate (", ".toList) cols

/-- The projected column list (lines 208-214). -/
def selectClause (ql : List Char) : List Char :=
  if askDetails ql then "*".toList
  else if askCount ql then "COUNT(*) as count".toList
  else joinCols (fallbackColumns ql)

/-- The fixed department token list (lines 219, 234). -/
def departments : List (List Char) :=
  ["IT", "HR", "Sales", "Marketing", "Finance", "Engineering",
   "Operations"].map String.toList

/-- First department whose lowercased token occurs in the query, as the
`for dept in departments` loops find it. -/
def firstDept (ql : List Char) : Option (List Char) :=
  departments.find? (fun d => isSub (pyLower d) ql)

/-- Maximal runs of digits, accumulator-based: `re.findall(r'\d+', s)`. -/
def digitRunsAux : List Char → List Char → List (List Char)
  | [], acc => if acc.isEmpty then [] else [acc.reverse]
  | c :: cs, acc =>
    if c.isDigit then digitRunsAux cs (c :: acc)
    else if acc.isEmpty then digitRunsAux cs []
    else acc.reverse :: digitRunsAux cs []

/-- `re.findall(r'\d+', s)` (line 241). -/
def pyFindNumbers (s : List Char) : List (List Char) := digitRunsAux s []

/-- Template of line 230. -/
def sqlList (sc : List Char) : List Char :=
  "SELECT ".toList ++ sc ++ " FROM employees ORDER BY name LIMIT 100;".toList

/-- Template of line 222. -/
def sqlCountDept (d : List Char) : List Char :=
  "SELECT COUNT(*) as count FROM employees WHERE LOWER(department) LIKE '%".toList
    ++ pyLower d ++ "%';".toList

/-- Template of line 237. -/
def sqlDeptFilter (sc d : List Char) : List Char :=
  "SELECT ".toList ++ sc ++
    " FROM employees WHERE LOWER(department) LIKE '%".toList ++ pyLower d ++
    "%' ORDER BY name LIMIT 50;".toList

/-- Template of line 246. -/
def sqlSalary (sc amount : List Char) : List Char :=
  "SELECT ".toList ++ sc ++ " FROM employees WHERE salary > ".toList ++
    amount ++ " ORDER BY salary DESC LIMIT 50;".toList

/-- Triple-quoted template of lines 254-259, whitespace included. -/
def sqlLastYear (sc : List Char) : List Char :=
  "\n                SELECT ".toList ++ sc ++
    " FROM employees \n                WHERE (date_of_join >= CURRENT_DATE - INTERVAL '1 year' \n                   OR hire_date >= CURRENT_DATE - INTERVAL '1 year')\n                ORDER BY COALESCE(date_of_join, hire_date) DESC LIMIT 50;\n                ".toList

/-- Triple-quoted template of lines 261-266, whitespace included. -/
def sqlThisYear (sc : List Char) : List Char :=
  "\n                SELECT ".toList ++ sc ++
    " FROM employees \n                WHERE (EXTRACT(YEAR FROM date_of_join) = EXTRACT(YEAR FROM CURRENT_DATE)\n                   OR EXTRACT(YEAR FROM hire_date) = EXTRACT(YEAR FROM CURRENT_DATE))\n                ORDER BY COALESCE(date_of_join, hire_date) DESC LIMIT 50;\n                ".toList

/-- Final cascade of `_query_fallback_local` (lines 268-281): name
pattern search, email mention, position intent, default listing. -/
def fallbackTail (ql : List Char) : List Char :=
  if isSub ("name".toList) ql &&
      (["contains", "like", "starts", "ends"].map String.toList).any
        (fun w => isSub w ql) then
    "SELECT name FROM employees WHERE name IS NOT NULL ORDER BY name LIMIT 100;".toList
  else if isSub ("email".toList) ql then
    "SELECT name, email, department FROM employees WHERE email IS NOT NULL ORDER BY name LIMIT 100;".toList
  else if askPosition ql then
    "SELECT name, position, department FROM employees WHERE position IS NOT NULL ORDER BY name LIMIT 100;".toList
  else
    "SELECT name FROM employees ORDER BY name LIMIT 20;".toList

/-- Date branch (lines 248-266).  When the temporal qualifiers are
absent it falls through to the tail cascade. -/
def fallbackFromDate (ql sc : List Char) : List Char :=
  if (["joined", "hired", "recent", "new"].map String.toList).any
      (fun w => isSub w ql) then
    let sc2 := if ¬ askDate ql then "name, department, date_of_join".toList
               else sc
    if isSub ("last year".toList) ql || isSub ("2023".toList) ql then
      sqlLastYear sc2
    else if isSub ("this year".toList) ql || isSub ("2024".toList) ql then
      sqlThisYear sc2
    else fallbackTail ql
  else fallbackTail ql

/-- Salary branch (lines 240-246), including the guarded reassignment
of the projection (line 244-245) that is taken when the salary intent
is absent.  Falls through when no numeric literal is present. -/
def fallbackFromSalary (ql sc : List Char) : List Char :=
  if askSalary ql &&
      (["greater", "more than", "above", "over"].map String.toList).any
        (fun w => isSub w ql) then
    match pyFindNumbers ql with
    | amount :: _ =>
      let sc2 := if ¬ askSalary ql then "name, salary, department".toList
                 else sc
      sqlSalary sc2 amount
    | [] => fallbackFromDate ql sc
  else fallbackFromDate ql sc

/-- Department branch (lines 233-237); falls through when no token of
the fixed department list occurs. -/
def fallbackFromDept (ql sc : List Char) : List Char :=
  if isSub ("department".toList) ql then
    match firstDept ql with
    | some d => sqlDeptFilter sc d
    | none => fallbackFromSalary ql sc
  else fallbackFromSalary ql sc

/-- `_query_fallback_local` (source lines 178-281). -/
def fallbackLocal (q : List Char) : List Char :=
  let ql := pyLower q
  let sc := selectClause ql
  if askCount ql then
    if isSub ("department".toList) ql then
      match firstDept ql with
      | some d => sqlCountDept d
      | none =>
        "SELECT department, COUNT(*) as count FROM employees WHERE department IS NOT NULL GROUP BY department ORDER BY count DESC;".toList
    else "SELECT COUNT(*) as total_employees FROM employees;".toList
  else if (["all employees", "show employees", "list employees"].map
      String.toList).any (fun w => isSub w ql) && ¬ askDetails ql then
    sqlList sc
  else fallbackFromDept ql sc

/-! ### Variant of the fallback generator without the dead guard

`fallbackFromSalaryLive` is `fallbackFromSalary` with the guarded
reassignment of lines 244-245 removed; the surrounding code is kept
verbatim.  Comparing the two settles whether that guard is reachable. -/

/-- Salary branch with the line 244-245 reassignment removed. -/
def fallbackFromSalaryLive (ql sc : List Char) : List Char :=
  if askSalary ql &&
      (["greater", "more than", "above", "over"].map String.toList).any
        (fun w => isSub w ql) then
    match pyFindNumbers ql with
    | amount :: _ => sqlSalary sc amount
    | [] => fallbackFromDate ql sc
  else fallbackFromDate ql sc

/-- Department branch, delegating to the guard-free salary branch. -/
def fallbackFromDeptLive (ql sc : List Char) : List Char :=
  if isSub ("department".toList) ql then
    match firstDept ql with
    | some d => sqlDeptFilter sc d
    | none => fallbackFromSalaryLive ql sc
  else fallbackFromSalaryLive ql sc

/-- `_query_fallback_local` with the dead guard removed. -/
def fallbackLocalLive (q : List Char) : List Char :=
  let ql := pyLower q
  let sc := selectClause ql
  if askCount ql then
    if isSub ("department".toList) ql then
      match firstDept ql with
      | some d => sqlCountDept d
      | none =>
        "SELECT department, COUNT(*) as count FROM employees WHERE department IS NOT NULL GROUP BY department ORDER BY count DESC;".toList
    else "SELECT COUNT(*) as total_employees FROM employees;".toList
  else if (["all employees", "show employees", "list employees"].map
      String.toList).any (fun w => isSub w ql) && ¬ askDetails ql then
    sqlList sc
  else fallbackFromDeptLive ql sc

/-! ### The remote generator (`_query_openrouter`) and the orchestrator
(`process_natural_language_query`)

The network is an oracle: one outcome per model tried, in order.
`exc` models a raised exception (connection error, timeout, malformed
response body); `resp status body` models an HTTP response whose
extracted `choices[0].message.content` text is `body`. -/

/-- Outcome of one remote model attempt. -/
inductive ModelOutcome where
  | exc : ModelOutcome
  | resp : Nat → List Char → ModelOutcome
deriving DecidableEq

/-- The `for model in models` loop of `_query_openrouter` (lines
144-176): on status 200 the stripped body is cleaned and returned,
whatever the cleaning result; otherwise the next model is tried; an
exhausted list yields `None`. -/
def orLoop : List ModelOutcome → Option (List Char)
  | [] => none
  | .exc :: rest => orLoop rest
  | .resp status body :: rest =>
    if status = 200 then cleanSql (pyStrip body) else orLoop rest

/-- `_query_openrouter` (lines 128-176): with no credential no network
call is made and the result is `None`. -/
def queryOpenrouter (hasKey : Bool) (outcomes : List ModelOutcome) :
    Option (List Char) :=
  if hasKey then orLoop outcomes else none

/-- The SQL string that `process_natural_language_query` (lines
379-407) hands to `_execute_sql_query`, or `none` when the
`'Failed to generate SQL query'` response is returned instead.  The
Python `if not sql_query` tests treat both `None` and the empty string
as absent. -/
def executedSql (hasKey : Bool) (outcomes : List ModelOutcome)
    (q : List Char) : Option (List Char) :=
  let remote := queryOpenrouter hasKey outcomes
  let sq := match remote with
    | none => fallbackLocal q
    | some v => if v.isEmpty then fallbackLocal q else v
  if sq.isEmpty then none else some sq

/-- Body of the first outcome with HTTP status exactly 200, skipping
exceptions and non-200 statuses.  Spec-side characterization used to
state what the remote generator returns. -/
def first200 (outcomes : List ModelOutcome) : Option (List Char) :=
  outcomes.findSome? fun o =>
    match o with
    | .resp status body => if status = 200 then some body else none
    | .exc => none

/-! ### The executor's cell conversion (`_execute_sql_query`, lines 326-341)

Driver cell values are modelled by `DbValue`: a temporal value carries
its `isoformat()` rendering, numeric values are rationals, `null` is
`None`, and `other` carries the `str(value)` rendering of any other
driver value.  `Cell` is the normalized scalar put into a result row. -/

/-- A driver-native cell value as seen by the conversion loop. -/
inductive DbValue where
  | temporal : List Char → DbValue
  | intV : Int → DbValue
  | floatV : ℚ → DbValue
  | null : DbValue
  | other : List Char → DbValue
deriving DecidableEq

/-- A normalized scalar in a result row. -/
inductive Cell where
  | num : ℚ → Cell
  | str : List Char → Cell
  | null : Cell
deriving DecidableEq

/-- Round to the nearest integer, ties to even, as Python `round`
behaves on exactly representable values. -/
def rndHalfEven (q : ℚ) : Int :=
  let f := ⌊q⌋
  if q - f < 1 / 2 then f
  else if q - f > 1 / 2 then f + 1
  else if f % 2 = 0 then f else f + 1

/-- `round(float(value), 2)`, modelled on rationals. -/
def ratRound2 (q : ℚ) : ℚ := (rndHalfEven (q * 100) : ℚ) / 100

/-- `str(value)` for an integer value. -/
def intRepr (n : Int) : List Char := (toString n).toList

/-- `str(value)` for a non-integer numeric value (model-level
rendering of the rational). -/
def ratRepr (q : ℚ) : List Char := (toString q).toList

/-- `'salary' in column_name.lower()` (line 335). -/
def salaryCol (name : List Char) : Bool :=
  isSub ("salary".toList) (pyLower name)

/-- The `elif` chain of lines 333-340, in source order: `isoformat`
first, then numeric-in-salary-column, then `None`, then `str(value)`. -/
def convertCell (name : List Char) (v : DbValue) : Cell :=
  match v with
  | .temporal iso => .str iso
  | .intV n => if salaryCol name then .num (ratRound2 (n : ℚ))
               else .str (intRepr n)
  | .floatV x => if salaryCol name then .num (ratRound2 x)
                 else .str (ratRepr x)
  | .null => .null
  | .other r => .str r

/-- Modelled from the claim's words, in the claim's order: temporal
values become ISO-8601 strings; numeric values in a column whose name
contains `salary` (case-insensitively) become numbers rounded to two
decimal places; null becomes null; every other value becomes its
string representation. -/
def specConvertCell (name : List Char) (v : DbValue) : Cell :=
  match v with
  | .null => .null
  | .temporal iso => .str iso
  | .intV n => if salaryCol name then .num (ratRound2 (n : ℚ))
               else .str (intRepr n)
  | .floatV x => if salaryCol name then .num (ratRound2 x)
                 else .str (ratRepr x)
  | .other r => .str r

/-- `columns[i] if i < len(columns) else f"column_{i}"` (line 330). -/
def colNameAt (cols : List (List Char)) (i : Nat) : List Char :=
  (cols.get? i).getD ("column_".toList ++ (toString i).toList)

/-- The row-conversion loop of lines 327-341 for one fetched row. -/
def convertRow (cols : List (List Char)) (row : List DbValue) :
    List (List Char × Cell) :=
  row.enum.map fun p => (colNameAt cols p.1, convertCell (colNameAt cols p.1) p.2)

/-- The row conversion the claim describes, cell-by-cell via
`specConvertCell`. -/
def specConvertRow (cols : List (List Char)) (row : List DbValue) :
    List (List Char × Cell) :=
  row.enum.map fun p =>
    (colNameAt cols p.1, specConvertCell (colNameAt cols p.1) p.2)

/-- A non-empty string that, once stripped, begins with `select`
case-insensitively: the shape every fallback template has. -/
def goodSelect (s : List Char) : Prop :=
  s ≠ [] ∧ isPre selectKw (pyLower (pyStrip s)) = true

/-! ## Basic facts about the string primitives -/

theorem isPre_iff (p s : List Char) : isPre p s = true ↔ ∃ t, s = p ++ t := by
  induction p generalizing s with
  | nil => simp [isPre]
  | cons a l ih =>
    cases s with
    | nil => simp [isPre]
    | cons b t =>
      simp only [isPre, Bool.and_eq_true, beq_iff_eq, ih, List.cons_append,
        List.cons.injEq]
      constructor
      · rintro ⟨rfl, u, rfl⟩; exact ⟨u, rfl, rfl⟩
      · rintro ⟨u, rfl, rfl⟩; exact ⟨rfl, u, rfl⟩

theorem isPre_append_right (p s t : List Char) (h : isPre p s = true) :
    isPre p (s ++ t) = true := by
  rcases (isPre_iff p s).1 h with ⟨u, rfl⟩
  exact (isPre_iff _ _).2 ⟨u ++ t, by simp⟩

theorem isSub_iff (p s : List Char) :
    isSub p s = true ↔ ∃ u v, s = u ++ p ++ v := by
  induction s with
  | nil =>
    simp only [isSub, List.isEmpty_iff]
    constructor
    · rintro rfl; exact ⟨[], [], rfl⟩
    · rintro ⟨u, v, h⟩
      rcases List.append_eq_nil.mp h.symm with ⟨h1, h2⟩
      exact (List.append_eq_nil.mp h1).2
  | cons c cs ih =>
    simp only [isSub, Bool.or_eq_true, isPre_iff, ih]
    constructor
    · rintro (⟨t, ht⟩ | ⟨u, v, huv⟩)
      · exact ⟨[], t, by simpa using ht⟩
      · exact ⟨c :: u, v, by simp [huv]⟩
    · rintro ⟨u, v, h⟩
      cases u with
      | nil => exact Or.inl ⟨v, by simpa using h⟩
      | cons d u' =>
        right
        obtain ⟨rfl, h2⟩ : d = c ∧ cs = u' ++ p ++ v := by
          have := h
          simp only [List.cons_append, List.cons.injEq] at this
          exact ⟨this.1.symm, this.2⟩
        exact ⟨u', v, h2⟩

theorem isSub_parts (p u m v : List Char) (h : isSub p m = true) :
    isSub p (u ++ m ++ v) = true := by
  rcases (isSub_iff p m).1 h with ⟨x, y, rfl⟩
  exact (isSub_iff _ _).2 ⟨u ++ x, y ++ v, by simp⟩

/-- An occurrence of `p` in `s ++ [c]` that cannot end at `c` is an
occurrence in `s`. -/
theorem isSub_concat (p s : List Char) (c : Char) (hne : p ≠ [])
    (hc : c ∉ p) (h : isSub p (s ++ [c]) = true) : isSub p s = true := by
  rcases (isSub_iff _ _).1 h with ⟨u, v, huv⟩
  rcases List.eq_nil_or_concat v with rfl | ⟨v', c', rfl⟩
  · exfalso
    apply hc
    have hlast : (s ++ [c]).getLast? = some c := List.getLast?_concat s
    rw [huv] at hlast
    simp only [List.append_nil, List.getLast?_append] at hlast
    rcases hp : p.getLast? with _ | d
    · exact absurd (List.getLast?_eq_none_iff.mp hp) hne
    · rw [hp] at hlast
      simp only [Option.or_some, Option.some.injEq] at hlast
      rw [hlast] at hp
      exact List.mem_of_getLast?_eq_some hp
  · have h2 : s ++ [c] = (u ++ p ++ v') ++ [c'] := by
      rw [huv, List.concat_eq_append]
      simp [List.append_assoc]
    obtain ⟨h3, -⟩ := List.append_inj' h2 rfl
    exact (isSub_iff _ _).2 ⟨u, v', h3⟩

/-! ## The fence scanners leave no fence behind -/

theorem sfTick_nil (n : Nat) : sfTick n [] = [] := by cases n <;> rfl

theorem sfTick_cons_ne (n : Nat) (c : Char) (cs : List Char) (h : c ≠ tick) :
    ∃ t, sfTick n (c :: cs) = c :: t := by
  have hbe : (tick == c) = false := beq_eq_false_iff_ne.mpr (Ne.symm h)
  cases n with
  | zero => exact ⟨cs, rfl⟩
  | succ m =>
    refine ⟨sfTick m cs, ?_⟩
    have hp : isPre fence (c :: cs) = false := by
      simp [fence, isPre, hbe]
    simp [sfTick, hp]

theorem isPre2_sfTick (n : Nat) (s : List Char)
    (h : isPre [tick, tick] s = false) :
    isPre [tick, tick] (sfTick n s) = false := by
  cases s with
  | nil => simp [sfTick_nil, isPre]
  | cons c cs =>
    by_cases hc : c = tick
    · subst hc
      have hcs : isPre [tick] cs = false := by
        simpa [isPre] using h
      cases cs with
      | nil =>
        cases n with
        | zero => simp [sfTick, isPre]
        | succ m => simp [sfTick, fence, isPre, sfTick_nil]
      | cons e es =>
        have he : e ≠ tick := by
          intro hee
          rw [hee] at hcs
          simp [isPre] at hcs
        have hbe : (tick == e) = false := beq_eq_false_iff_ne.mpr (Ne.symm he)
        cases n with
        | zero => simpa [sfTick] using h
        | succ m =>
          have hp : isPre fence (tick :: e :: es) = false := by
            simp [fence, isPre, hbe]
          rw [sfTick, if_neg (by simp [hp])]
          rcases sfTick_cons_ne m e es he with ⟨t, ht⟩
          simp [ht, isPre, hbe]
    · have hbe : (tick == c) = false := beq_eq_false_iff_ne.mpr (Ne.symm hc)
      rcases sfTick_cons_ne n c cs hc with ⟨t, ht⟩
      simp [ht, isPre, hbe]

theorem dropNl_length (s : List Char) : (dropNl s).length ≤ s.length := by
  unfold dropNl
  split
  · simp
  · exact le_refl _

theorem sfTick_no_fence (n : Nat) (s : List Char) (hlen : s.length ≤ n) :
    isSub fence (sfTick n s) = false := by
  induction n generalizing s with
  | zero =>
    have : s = [] := List.length_eq_zero.mp (Nat.le_zero.mp hlen)
    subst this
    simp [sfTick, isSub, fence]
  | succ m ih =>
    cases s with
    | nil => simp [sfTick_nil, isSub, fence]
    | cons c cs =>
      have hcs : cs.length ≤ m := by simpa using hlen
      by_cases hp : isPre fence (c :: cs) = true
      · rw [sfTick, if_pos hp]
        have hd : (cs.drop 2).length ≤ m := by
          rw [List.length_drop]; exact le_trans (Nat.sub_le _ _) hcs
        exact ih _ (le_trans (dropNl_length _) hd)
      · rw [sfTick, if_neg (by simp [hp])]
        have hsub := ih cs hcs
        simp only [isSub, Bool.or_eq_false_iff]
        refine ⟨?_, hsub⟩
        by_cases hc : c = tick
        · subst hc
          have h2 : isPre [tick, tick] cs = false := by
            simpa [fence, isPre] using hp
          have h3 := isPre2_sfTick m cs h2
          simp [fence, isPre, h3]
        · have hbe : (tick == c) = false := beq_eq_false_iff_ne.mpr (Ne.symm hc)
          simp [fence, isPre, hbe]

/-- A fence-free string is left unchanged by the bare-fence scanner. -/
theorem sfTick_id (n : Nat) (s : List Char) (h : isSub fence s = false) :
    sfTick n s = s := by
  induction n generalizing s with
  | zero => cases s <;> rfl
  | succ m ih =>
    cases s with
    | nil => rfl
    | cons c cs =>
      have h2 : isPre fence (c :: cs) = false ∧ isSub fence cs = false := by
        simpa [isSub, Bool.or_eq_false_iff] using h
      rw [sfTick, if_neg (by simp [h2.1]), ih cs h2.2]

theorem isPre_of_isPre_append (p q s : List Char)
    (h : isPre (p ++ q) s = true) : isPre p s = true := by
  rcases (isPre_iff _ _).1 h with ⟨t, rfl⟩
  exact (isPre_iff _ _).2 ⟨q ++ t, by simp⟩

/-- A fence-free string is left unchanged by the fence-`sql` scanner. -/
theorem sfSql_id (n : Nat) (s : List Char) (h : isSub fence s = false) :
    sfSql n s = s := by
  induction n generalizing s with
  | zero => cases s <;> rfl
  | succ m ih =>
    cases s with
    | nil => rfl
    | cons c cs =>
      have h2 : isPre fence (c :: cs) = false ∧ isSub fence cs = false := by
        simpa [isSub, Bool.or_eq_false_iff] using h
      have h3 : isPre fenceSql (c :: cs) = false := by
        by_cases hq : isPre fenceSql (c :: cs) = true
        · exact absurd (isPre_of_isPre_append fence ['s', 'q', 'l'] _ hq)
            (by simp [h2.1])
        · simpa using hq
      rw [sfSql, if_neg (by simp [h3]), ih cs h2.2]

/-! ## `pyStrip` facts -/

/-- Any string splits as leading whitespace, its strip, and trailing
whitespace. -/
theorem pyStrip_parts (s : List Char) : ∃ u v, s = u ++ pyStrip s ++ v := by
  refine ⟨s.takeWhile pySpace,
    ((s.dropWhile pySpace).reverse.takeWhile pySpace).reverse, ?_⟩
  conv_lhs => rw [← List.takeWhile_append_dropWhile (p := pySpace) (l := s)]
  rw [List.append_assoc]
  congr 1
  conv_lhs =>
    rw [← List.reverse_reverse (s.dropWhile pySpace),
      ← List.takeWhile_append_dropWhile (p := pySpace)
        (l := (s.dropWhile pySpace).reverse)]
  rw [List.reverse_append]
  rfl

/-- Strings with non-whitespace first and last characters are fixed by
`pyStrip`. -/
theorem pyStrip_id (s : List Char) (c₁ c₂ : Char) (h1 : s.head? = some c₁)
    (hs1 : pySpace c₁ = false) (h2 : s.getLast? = some c₂)
    (hs2 : pySpace c₂ = false) : pyStrip s = s := by
  have hd : s.dropWhile pySpace = s := by
    cases s with
    | nil => rfl
    | cons a t =>
      have : a = c₁ := by simpa using h1
      subst this
      simp [List.dropWhile_cons, hs1]
  have hrev : s.reverse.head? = some c₂ := by
    rw [List.head?_reverse]; exact h2
  have hr : s.reverse.dropWhile pySpace = s.reverse := by
    cases hrv : s.reverse with
    | nil => rfl
    | cons a t =>
      have : a = c₂ := by
        rw [hrv] at hrev; simpa using hrev
      subst this
      simp [List.dropWhile_cons, hs2]
  unfold pyStrip
  rw [hd, hr, List.reverse_reverse]

/-- Whitespace characters are unchanged by lowercasing, hence never
lowercase to a letter. -/
theorem pySpace_lowerChar (c : Char) (h : pySpace c = true) :
    lowerChar c = c := by
  have hc : ((((c = ' ' ∨ c = '\t') ∨ c = '\n') ∨ c = '\r') ∨
      c = Char.ofNat 11) ∨ c = Char.ofNat 12 := by
    simpa [pySpace, Bool.or_eq_true] using h
  rcases hc with ((((rfl | rfl) | rfl) | rfl) | rfl) | rfl <;> decide

theorem isPre_cons_head (a : Char) (p : List Char) (c : Char) (q : List Char)
    (h : isPre (a :: p) (c :: q) = true) : a = c := by
  simp only [isPre, Bool.and_eq_true, beq_iff_eq] at h
  exact h.1

/-! ## What the sanitizer guarantees about an accepted result -/

/-- Every accepted sanitizer output starts with `select`
case-insensitively, avoids the denylist, names the table, ends in `;`,
contains no code fence, and carries no surrounding whitespace. -/
theorem cleanSql_some_spec (sql out : List Char) (h : cleanSql sql = some out) :
    isPre selectKw (pyLower out) = true ∧
    (∀ op ∈ prohibitedOps, isSub op (pyLower out) = false) ∧
    isSub tableName (pyLower out) = true ∧
    out.getLast? = some ';' ∧
    isSub fence out = false ∧
    pyStrip out = out := by
  simp only [cleanSql] at h
  split at h
  · exact absurd h (by simp)
  generalize hs : pyStrip (subFenceTick (subFenceSql sql)) = s at h
  have hfence : isSub fence s = false := by
    have hX : isSub fence (subFenceTick (subFenceSql sql)) = false :=
      sfTick_no_fence _ _ (le_refl _)
    rcases pyStrip_parts (subFenceTick (subFenceSql sql)) with ⟨u, v, huv⟩
    cases hb : isSub fence s with
    | false => rfl
    | true =>
      rw [← hs] at hb
      have h2 := isSub_parts fence u _ v hb
      rw [← huv] at h2
      rw [h2] at hX
      cases hX
  split at h
  · exact absurd h (by simp)
  next hsel =>
  have hsel' : isPre selectKw (pyLower s) = true := by
    by_contra hx; exact hsel hx
  split at h
  · exact absurd h (by simp)
  next hpro =>
  have hpro' : ∀ op ∈ prohibitedOps, isSub op (pyLower s) = false := by
    have hany : prohibitedOps.any (fun op => isSub op (pyLower s)) = false := by
      cases hv : prohibitedOps.any (fun op => isSub op (pyLower s)) with
      | false => rfl
      | true => exact absurd hv hpro
    intro op hop
    have h2 := List.any_eq_false.mp hany op hop
    simpa using h2
  split at h
  · exact absurd h (by simp)
  next hemp =>
  have hemp' : isSub tableName (pyLower s) = true := by
    by_contra hx; exact hemp hx
  obtain ⟨c₁, t₁, rfl⟩ : ∃ c t, s = c :: t := by
    cases s with
    | nil => exact absurd hsel' (by simp [pyLower, selectKw, isPre])
    | cons a t => exact ⟨a, t, rfl⟩
  have hlow : 's' = lowerChar c₁ := isPre_cons_head _ _ _ _ hsel'
  have hns : pySpace c₁ = false := by
    cases hsp : pySpace c₁ with
    | false => rfl
    | true =>
      have hlc := pySpace_lowerChar c₁ hsp
      rw [← hlow] at hlc
      rw [← hlc] at hsp
      exact absurd hsp (by decide)
  have hopsf : ∀ op ∈ prohibitedOps, op ≠ [] ∧ ';' ∉ op := by decide
  have hfencef : fence ≠ [] ∧ ';' ∉ fence := by decide
  split at h
  next hsemi =>
    obtain rfl : c₁ :: t₁ = out := by injection h
    refine ⟨hsel', hpro', hemp', hsemi, hfence, ?_⟩
    exact pyStrip_id _ c₁ ';' rfl hns hsemi (by decide)
  next hsemi =>
    obtain rfl : (c₁ :: t₁) ++ [';'] = out := by injection h
    have hlowapp : pyLower ((c₁ :: t₁) ++ [';']) = pyLower (c₁ :: t₁) ++ [';'] := by
      simp [pyLower]
      decide
    refine ⟨?_, ?_, ?_, List.getLast?_concat _, ?_, ?_⟩
    · rw [hlowapp]; exact isPre_append_right _ _ _ hsel'
    · intro op hop
      cases hv : isSub op (pyLower ((c₁ :: t₁) ++ [';'])) with
      | false => rfl
      | true =>
        rw [hlowapp] at hv
        have h2 := isSub_concat op _ ';' (hopsf op hop).1 (hopsf op hop).2 hv
        have h3 := hpro' op hop
        simp [h3] at h2
    · rw [hlowapp]
      have := isSub_parts tableName [] (pyLower (c₁ :: t₁)) [';'] hemp'
      simpa using this
    · cases hv : isSub fence ((c₁ :: t₁) ++ [';']) with
      | false => rfl
      | true =>
        have h2 := isSub_concat fence _ ';' hfencef.1 hfencef.2 hv
        rw [h2] at hfence
        cases hfence
    · exact pyStrip_id _ c₁ ';' rfl hns (List.getLast?_concat _) (by decide)

/-! ## Every fallback template is a non-empty SELECT -/

theorem pyLower_append (a b : List Char) :
    pyLower (a ++ b) = pyLower a ++ pyLower b := List.map_append _ _ _

theorem dropWhile_append_of_space (w x : List Char)
    (hw : ∀ c ∈ w, pySpace c = true) :
    (w ++ x).dropWhile pySpace = x.dropWhile pySpace := by
  induction w with
  | nil => rfl
  | cons c w' ih =>
    rw [List.cons_append, List.dropWhile_cons,
      if_pos (hw c (List.mem_cons_self _ _)),
      ih (fun d hd => hw d (List.mem_cons_of_mem _ hd))]

/-- Any amount of leading whitespace followed by a literal `SELECT `
and anything else strips to a string that starts with `select`
case-insensitively. -/
theorem goodSelect_shape (w r : List Char) (hw : ∀ c ∈ w, pySpace c = true) :
    goodSelect (w ++ ("SELECT ".toList ++ r)) := by
  constructor
  · intro hnil
    have := congrArg List.length hnil
    simp [List.length_append] at this
  · unfold pyStrip
    rw [dropWhile_append_of_space w _ hw]
    have h1 : ("SELECT ".toList ++ r).dropWhile pySpace =
        "SELECT ".toList ++ r := by
      rw [show ("SELECT ".toList ++ r) = 'S' :: ("ELECT ".toList ++ r) from rfl,
        List.dropWhile_cons, if_neg (by decide)]
    rw [h1, List.reverse_append, List.dropWhile_append]
    split
    next hemp =>
      decide
    next hemp =>
      rw [List.reverse_append, List.reverse_reverse, pyLower_append]
      exact isPre_append_right _ _ _ (by decide)

theorem goodSelect_lit (r : List Char) : goodSelect ("SELECT ".toList ++ r) :=
  goodSelect_shape [] r (by simp)

theorem goodSelect_ml (r : List Char) :
    goodSelect ("\n                SELECT ".toList ++ r) :=
  goodSelect_shape ("\n                ".toList) r (by decide)

theorem goodSelect_fallbackTail (ql : List Char) :
    goodSelect (fallbackTail ql) := by
  unfold fallbackTail
  split
  · exact goodSelect_lit ("name FROM employees WHERE name IS NOT NULL ORDER BY name LIMIT 100;".toList)
  split
  · exact goodSelect_lit ("name, email, department FROM employees WHERE email IS NOT NULL ORDER BY name LIMIT 100;".toList)
  split
  · exact goodSelect_lit ("name, position, department FROM employees WHERE position IS NOT NULL ORDER BY name LIMIT 100;".toList)
  · exact goodSelect_lit ("name FROM employees ORDER BY name LIMIT 20;".toList)

theorem goodSelect_sqlList (sc : List Char) : goodSelect (sqlList sc) :=
  goodSelect_lit (sc ++ " FROM employees ORDER BY name LIMIT 100;".toList)

theorem goodSelect_sqlCountDept (d : List Char) : goodSelect (sqlCountDept d) :=
  goodSelect_lit
    ("COUNT(*) as count FROM employees WHERE LOWER(department) LIKE '%".toList
      ++ (pyLower d ++ "%';".toList))

theorem goodSelect_sqlDeptFilter (sc d : List Char) :
    goodSelect (sqlDeptFilter sc d) :=
  goodSelect_lit
    (((sc ++ " FROM employees WHERE LOWER(department) LIKE '%".toList) ++
      pyLower d) ++ "%' ORDER BY name LIMIT 50;".toList)

theorem goodSelect_sqlSalary (sc amount : List Char) :
    goodSelect (sqlSalary sc amount) :=
  goodSelect_lit
    (((sc ++ " FROM employees WHERE salary > ".toList) ++ amount) ++
      " ORDER BY salary DESC LIMIT 50;".toList)

theorem goodSelect_sqlLastYear (sc : List Char) : goodSelect (sqlLastYear sc) :=
  goodSelect_ml
    (sc ++ " FROM employees \n                WHERE (date_of_join >= CURRENT_DATE - INTERVAL '1 year' \n                   OR hire_date >= CURRENT_DATE - INTERVAL '1 year')\n                ORDER BY COALESCE(date_of_join, hire_date) DESC LIMIT 50;\n                ".toList)

theorem goodSelect_sqlThisYear (sc : List Char) : goodSelect (sqlThisYear sc) :=
  goodSelect_ml
    (sc ++ " FROM employees \n                WHERE (EXTRACT(YEAR FROM date_of_join) = EXTRACT(YEAR FROM CURRENT_DATE)\n                   OR EXTRACT(YEAR FROM hire_date) = EXTRACT(YEAR FROM CURRENT_DATE))\n                ORDER BY COALESCE(date_of_join, hire_date) DESC LIMIT 50;\n                ".toList)

theorem goodSelect_fromDate (ql sc : List Char) :
    goodSelect (fallbackFromDate ql sc) := by
  simp only [fallbackFromDate]
  split
  · split
    · exact goodSelect_sqlLastYear _
    split
    · exact goodSelect_sqlThisYear _
    · exact goodSelect_fallbackTail ql
  · exact goodSelect_fallbackTail ql

theorem goodSelect_fromSalary (ql sc : List Char) :
    goodSelect (fallbackFromSalary ql sc) := by
  simp only [fallbackFromSalary]
  split
  · split
    · exact goodSelect_sqlSalary _ _
    · exact goodSelect_fromDate ql sc
  · exact goodSelect_fromDate ql sc

theorem goodSelect_fromDept (ql sc : List Char) :
    goodSelect (fallbackFromDept ql sc) := by
  simp only [fallbackFromDept]
  split
  · split
    · exact goodSelect_sqlDeptFilter _ _
    · exact goodSelect_fromSalary ql sc
  · exact goodSelect_fromSalary ql sc

/-- `_query_fallback_local` always produces a non-empty SELECT. -/
theorem goodSelect_fallbackLocal (q : List Char) :
    goodSelect (fallbackLocal q) := by
  simp only [fallbackLocal]
  split
  · split
    · split
      · exact goodSelect_sqlCountDept _
      · exact goodSelect_lit
          ("department, COUNT(*) as count FROM employees WHERE department IS NOT NULL GROUP BY department ORDER BY count DESC;".toList)
    · exact goodSelect_lit ("COUNT(*) as total_employees FROM employees;".toList)
  split
  · exact goodSelect_sqlList _
  · exact goodSelect_fromDept _ _

/-! ## Remote-generator and orchestrator helpers -/

/-- Anything the model loop hands back is a sanitizer-accepted value. -/
theorem orLoop_some (outcomes : List ModelOutcome) (v : List Char)
    (h : orLoop outcomes = some v) : ∃ raw, cleanSql raw = some v := by
  induction outcomes with
  | nil => simp [orLoop] at h
  | cons o rest ih =>
    cases o with
    | exc => exact ih (by simpa [orLoop] using h)
    | resp status body =>
      by_cases hst : status = 200
      · subst hst
        rw [orLoop, if_pos rfl] at h
        exact ⟨pyStrip body, h⟩
      · rw [orLoop, if_neg hst] at h
        exact ih h

/-- The model loop applies the sanitizer to the body of the first
status-200 response and returns that, trying no further model. -/
theorem orLoop_eq_first200 (outcomes : List ModelOutcome) :
    orLoop outcomes =
      (first200 outcomes).bind (fun b => cleanSql (pyStrip b)) := by
  induction outcomes with
  | nil => rfl
  | cons o rest ih =>
    cases o with
    | exc => simpa [orLoop, first200, List.findSome?_cons] using ih
    | resp status body =>
      by_cases hst : status = 200
      · subst hst
        simp [orLoop, first200, List.findSome?_cons]
      · simp only [orLoop, first200, List.findSome?_cons, if_neg hst]
        simpa [first200] using ih

/-! ## The claims -/

set_option maxRecDepth 100000

/-- Claim C1 as stated is false: on the input `employees hired last
year` with no remote credential, the orchestrator hands the fallback's
multiline SQL to the Executor, and no sanitizer call whatsoever can
have produced that string (sanitizer-accepted outputs are stripped and
begin with a letter `s`, while this string begins with a newline). -/
theorem c1_executor_bypass_counterexample :
    ∃ s, executedSql false [] ("employees hired last year".toList) = some s ∧
      ∀ raw, cleanSql raw ≠ some s := by
  refine ⟨fallbackLocal ("employees hired last year".toList), by decide, ?_⟩
  intro raw hr
  obtain ⟨hsel, -, -, -, -, -⟩ := cleanSql_some_spec raw _ hr
  have hhead : (fallbackLocal ("employees hired last year".toList)).head? =
      some '\n' := by decide
  cases hout : fallbackLocal ("employees hired last year".toList) with
  | nil => rw [hout] at hhead; exact absurd hhead (by simp)
  | cons c t =>
    rw [hout] at hhead
    have hc : c = '\n' := by simpa using hhead
    rw [hout, hc] at hsel
    have := isPre_cons_head _ _ _ _ hsel
    exact absurd this (by decide)

/-- Claim C1 (amended): every SQL string handed to the Query Executor
is either a sanitizer-accepted value (the remote path) or the raw
output of the Rule-Based Fallback Generator, which reaches the
Executor without passing through the Sanitizer. -/
theorem c1_executor_input_provenance (hasKey : Bool)
    (outcomes : List ModelOutcome) (q s : List Char)
    (h : executedSql hasKey outcomes q = some s) :
    (∃ raw, cleanSql raw = some s) ∨ s = fallbackLocal q := by
  cases hr : queryOpenrouter hasKey outcomes with
  | none =>
    simp only [executedSql, hr] at h
    split at h
    · exact absurd h (by simp)
    · right
      injection h with h2
      exact h2.symm
  | some v =>
    simp only [executedSql, hr] at h
    by_cases hv : v.isEmpty = true
    · rw [if_pos hv] at h
      split at h
      · exact absurd h (by simp)
      · right
        injection h with h2
        exact h2.symm
    · rw [if_neg hv] at h
      split at h
      · exact absurd h (by simp)
      · left
        have h2 : v = s := by injection h
        rw [← h2]
        have hor : orLoop outcomes = some v := by
          cases hasKey with
          | false => exact absurd hr (by simp [queryOpenrouter])
          | true => simpa [queryOpenrouter] using hr
        exact orLoop_some _ _ hor

/-- Witness for the amended C1 at a concrete input: the fallback arm of
the disjunction is realized. -/
theorem c1_executor_input_provenance_witness :
    (∃ raw, cleanSql raw = some (fallbackLocal ("show employees".toList))) ∨
      fallbackLocal ("show employees".toList) =
        fallbackLocal ("show employees".toList) :=
  c1_executor_input_provenance false [] ("show employees".toList) _ (by decide)

/-- Claim C2: every string the Sanitizer accepts starts with `select`
case-insensitively, contains the table name `employees`
case-insensitively, ends with a semicolon, and contains none of the
denylisted keywords case-insensitively. -/
theorem c2_sanitizer_output_wellformed (sql out : List Char)
    (h : cleanSql sql = some out) :
    isPre selectKw (pyLower out) = true ∧
    isSub tableName (pyLower out) = true ∧
    out.getLast? = some ';' ∧
    ∀ op ∈ prohibitedOps, isSub op (pyLower out) = false := by
  obtain ⟨h1, h2, h3, h4, -, -⟩ := cleanSql_some_spec sql out h
  exact ⟨h1, h3, h4, h2⟩

/-- Witness for C2 at the concrete accepted input
`SELECT * FROM employees`. -/
theorem c2_sanitizer_output_wellformed_witness :
    isPre selectKw (pyLower ("SELECT * FROM employees;".toList)) = true ∧
    isSub tableName (pyLower ("SELECT * FROM employees;".toList)) = true ∧
    ("SELECT * FROM employees;".toList).getLast? = some ';' ∧
    ∀ op ∈ prohibitedOps,
      isSub op (pyLower ("SELECT * FROM employees;".toList)) = false :=
  c2_sanitizer_output_wellformed ("SELECT * FROM employees".toList) _ (by decide)

/-- Claim C3: the Rule-Based Fallback Generator is total — on every
input text, the empty string included, it returns a non-empty string
that (after stripping surrounding whitespace) begins with `SELECT`
case-insensitively; it never signals absence of a result. -/
theorem c3_fallback_total (q : List Char) :
    fallbackLocal q ≠ [] ∧
    isPre selectKw (pyLower (pyStrip (fallbackLocal q))) = true :=
  goodSelect_fallbackLocal q

/-- Claim C4 as stated is false: when the only remote model answers 200
with the candidate `DROP TABLE employees;`, the Sanitizer rejects it and
the remote generator yields no result — but the Orchestrator then falls
through to the Rule-Based Fallback Generator and executes its SQL
instead of returning a failure response. -/
theorem c4_no_fallthrough_counterexample :
    queryOpenrouter true
        [ModelOutcome.resp 200 ("DROP TABLE employees;".toList)] = none ∧
    executedSql true [ModelOutcome.resp 200 ("DROP TABLE employees;".toList)]
        ("test".toList) = some (fallbackLocal ("test".toList)) ∧
    fallbackLocal ("test".toList) ≠ [] := by decide

/-- Claim C4 (amended): whenever the remote generator signals no result
— in particular when its only candidate was rejected by the Sanitizer —
the Orchestrator falls through to the Rule-Based Fallback Generator and
hands the Executor exactly the fallback's SQL; the response is that of
executing this query, not a forced failure. -/
theorem c4_orchestrator_falls_through (outcomes : List ModelOutcome)
    (q : List Char) (h : queryOpenrouter true outcomes = none) :
    executedSql true outcomes q = some (fallbackLocal q) := by
  have hne : fallbackLocal q ≠ [] := (goodSelect_fallbackLocal q).1
  simp only [executedSql, h]
  rw [if_neg (by simp [List.isEmpty_iff, hne])]

/-- Witness for the amended C4: a rejected remote candidate makes the
orchestrator execute the fallback SQL. -/
theorem c4_orchestrator_falls_through_witness :
    executedSql true [ModelOutcome.resp 200 ("DROP TABLE employees;".toList)]
        ("abc".toList) = some (fallbackLocal ("abc".toList)) :=
  c4_orchestrator_falls_through _ _ (by decide)

/-- Claim C5 as stated is false on one point: when the first model
answers HTTP 200 with a body the Sanitizer rejects, the generator
returns no result immediately instead of continuing to the next model,
even though the next model's body is cleaned, non-empty and
sanitize-eligible. -/
theorem c5_openrouter_counterexample :
    queryOpenrouter true
        [ModelOutcome.resp 200 ("DROP TABLE employees;".toList),
         ModelOutcome.resp 200 ("SELECT * FROM employees;".toList)] = none ∧
    cleanSql (pyStrip ("SELECT * FROM employees;".toList)) =
      some ("SELECT * FROM employees;".toList) := by decide

/-- Claim C5 (amended): with a credential, the remote generator returns
the Sanitizer's verdict on the stripped body of the first HTTP-200
response, skipping models that error out or answer non-200 and trying
no model after the first 200; with no 200 response at all, or with no
credential (in which case no network call is made), it returns no
result rather than an error. -/
theorem c5_openrouter_first200 (hasKey : Bool)
    (outcomes : List ModelOutcome) :
    queryOpenrouter hasKey outcomes =
      if hasKey then (first200 outcomes).bind (fun b => cleanSql (pyStrip b))
      else none := by
  cases hasKey
  · rfl
  · simpa [queryOpenrouter] using orLoop_eq_first200 outcomes

/-- Claim C6: the Sanitizer is idempotent — any accepted output is a
fixed point of `_clean_sql_query`. -/
theorem c6_sanitizer_idempotent (sql out : List Char)
    (h : cleanSql sql = some out) : cleanSql out = some out := by
  obtain ⟨hsel, hpro, hemp, hsemi, hfence, hstrip⟩ := cleanSql_some_spec sql out h
  have hne : out ≠ [] := by
    rintro rfl
    exact absurd hsel (by decide)
  have hne' : out.isEmpty = false := by simpa [List.isEmpty_iff] using hne
  have hids : subFenceSql out = out := sfSql_id _ _ hfence
  have hidt : subFenceTick out = out := sfTick_id _ _ hfence
  have hany : (prohibitedOps.any fun op => isSub op (pyLower out)) = false :=
    List.any_eq_false.mpr (fun op hop => by simp [hpro op hop])
  simp only [cleanSql, hids, hidt, hstrip]
  rw [if_neg (by simp [hne']), if_neg (by simp [hsel]),
    if_neg (by simp [hany]), if_neg (by simp [hemp]), if_pos hsemi]

/-- Witness for C6 at a concrete accepted input. -/
theorem c6_sanitizer_idempotent_witness :
    cleanSql ("SELECT * FROM employees;".toList) =
      some ("SELECT * FROM employees;".toList) :=
  c6_sanitizer_idempotent ("SELECT * FROM employees".toList) _ (by decide)

/-- Claim C7: the Executor's row conversion agrees cell-by-cell with
the claim's description — temporal values to their ISO-8601 strings,
numeric values in a column whose name contains `salary`
(case-insensitively) to numbers rounded to two decimal places, null to
null, and every other value to its string representation — so rows
never contain driver-native values. -/
theorem c7_executor_cell_conversion (cols : List (List Char))
    (row : List DbValue) : convertRow cols row = specConvertRow cols row := by
  have hc : ∀ n v, convertCell n v = specConvertCell n v := by
    intro n v
    cases v <;> rfl
  simp [convertRow, specConvertRow, hc]

/-- Claim C8: on `Employees earning over 50000` the fallback detects
the salary intent, a comparison word and the literal 50000, and the
produced SQL filters `salary > 50000`, orders by `salary DESC` and
limits to 50 rows. -/
theorem c8_salary_scenario :
    askSalary (pyLower ("Employees earning over 50000".toList)) = true ∧
    (["greater", "more than", "above", "over"].map String.toList).any
      (fun w => isSub w (pyLower ("Employees earning over 50000".toList)))
      = true ∧
    (pyFindNumbers (pyLower ("Employees earning over 50000".toList))).head?
      = some ("50000".toList) ∧
    isSub ("salary > 50000".toList)
      (fallbackLocal ("Employees earning over 50000".toList)) = true ∧
    isSub ("ORDER BY salary DESC".toList)
      (fallbackLocal ("Employees earning over 50000".toList)) = true ∧
    isSub ("LIMIT 50".toList)
      (fallbackLocal ("Employees earning over 50000".toList)) = true := by
  decide

/-- Claim C9: on `How many employees work in the IT department?` the
fallback detects the count intent, matches the department token `IT`
case-insensitively, and produces exactly the grouped COUNT query with
`LIKE '%it%'`. -/
theorem c9_count_scenario :
    askCount (pyLower
      ("How many employees work in the IT department?".toList)) = true ∧
    firstDept (pyLower
      ("How many employees work in the IT department?".toList)) =
      some ("IT".toList) ∧
    fallbackLocal ("How many employees work in the IT department?".toList) =
      "SELECT COUNT(*) as count FROM employees WHERE LOWER(department) LIKE '%it%';".toList := by
  decide

/-- Claim C10: the guarded projection reassignment inside the salary
branch is unreachable — removing it leaves the generator extensionally
unchanged on every input. -/
theorem c10_dead_guard_unreachable (q : List Char) :
    fallbackLocal q = fallbackLocalLive q := by
  have hs : ∀ ql sc, fallbackFromSalary ql sc = fallbackFromSalaryLive ql sc := by
    intro ql sc
    simp only [fallbackFromSalary, fallbackFromSalaryLive]
    split
    next h =>
      have h1 : askSalary ql = true := (Bool.and_eq_true_iff.mp h).1
      cases hn : pyFindNumbers ql with
      | nil => rfl
      | cons a t => simp [h1]
    next => rfl
  have hd : ∀ ql sc, fallbackFromDept ql sc = fallbackFromDeptLive ql sc := by
    intro ql sc
    simp only [fallbackFromDept, fallbackFromDeptLive, hs]
  simp only [fallbackLocal, fallbackLocalLive, hd]

end DataFabric
